import Mathlib

/-!
Verification of the CodeAgent repository harvester core: the path filter
(src/services/github/utils/path_filter.py and src/path_filter.py), the two
retry wrappers (the one defined at the bottom of
src/services/github/utils/repo_walker.py and src/utils/retries_wrapper.py),
and the repository walker (RepoWalker in repo_walker.py).

The Python source is shallowly embedded: compiled regexes are modeled as
boolean match functions, remote-call outcomes and exception objects as
inductive data, and the retry loops as structurally recursive functions that
also record the sequence of sleep durations and the number of invocations of
the wrapped operation.  Machine floats (time.time, delays) are modeled as
integers; the spec only speaks of whole-second delays.
-/

namespace CodeAgent

/-! ## Path filters

A compiled regular expression is modeled by the boolean function
(search : String → Bool) it induces on paths; the filter combinators never
inspect the pattern itself, only whether it matches. -/

/-- Enum FilteredObjectType from src/services/github/utils/path_filter.py. -/
inductive FilteredObjectType where
  | FILE
  | DIRECTORY
deriving DecidableEq

/-- Class PathFilter of src/services/github/utils/path_filter.py: the four
pattern lists produced by the constructor from file_filters and path_filters
(include/exclude partition).  Field names follow the Python attributes. -/
structure PathFilter where
  include_file_patterns : List (String → Bool)
  exclude_file_patterns : List (String → Bool)
  include_directory_patterns : List (String → Bool)
  exclude_directory_patterns : List (String → Bool)

/-- PathFilter._match_file: returns True when both pattern lists are empty,
otherwise requires some include match and no exclude match. -/
def PathFilter.matchFile (pf : PathFilter) (path : String) : Bool :=
  if pf.include_file_patterns.isEmpty && pf.exclude_file_patterns.isEmpty then
    true
  else
    pf.include_file_patterns.any (fun p => p path) &&
      !(pf.exclude_file_patterns.any (fun p => p path))

/-- PathFilter._match_directory, same shape as _match_file. -/
def PathFilter.matchDirectory (pf : PathFilter) (path : String) : Bool :=
  if pf.include_directory_patterns.isEmpty && pf.exclude_directory_patterns.isEmpty then
    true
  else
    pf.include_directory_patterns.any (fun p => p path) &&
      !(pf.exclude_directory_patterns.any (fun p => p path))

/-- PathFilter.match: dispatch on the object type. -/
def PathFilter.match (pf : PathFilter) (path : String) : FilteredObjectType → Bool
  | .FILE => pf.matchFile path
  | .DIRECTORY => pf.matchDirectory path

/-- Include pattern list of a PathFilter for a given object kind. -/
def includesOf (pf : PathFilter) : FilteredObjectType → List (String → Bool)
  | .FILE => pf.include_file_patterns
  | .DIRECTORY => pf.include_directory_patterns

/-- Exclude pattern list of a PathFilter for a given object kind. -/
def excludesOf (pf : PathFilter) : FilteredObjectType → List (String → Bool)
  | .FILE => pf.exclude_file_patterns
  | .DIRECTORY => pf.exclude_directory_patterns

/-- Class PathFilter of src/path_filter.py (the standalone, kind-less
variant).  The Python attributes are literally named include and exclude;
those are Lean keywords, so the fields carry a Patterns suffix. -/
structure SimplePathFilter where
  includePatterns : List (String → Bool)
  excludePatterns : List (String → Bool)

/-- SimplePathFilter.match from src/path_filter.py: an exclude match rejects;
a nonempty include list with no match rejects; everything else passes. -/
def SimplePathFilter.match (pf : SimplePathFilter) (path : String) : Bool :=
  if pf.excludePatterns.any (fun p => p path) then false
  else if !pf.includePatterns.isEmpty && !(pf.includePatterns.any (fun p => p path)) then false
  else true

/-! ## Retry wrappers

One attempt of the wrapped operation either returns a value, raises
httpx.HTTPStatusError (carrying a status code and an optional
x-rateLimit-reset header, as an epoch second), or raises some other
exception. -/

/-- Outcome of one invocation of the wrapped operation. -/
inductive Outcome (α : Type) where
  | ok (a : α)
  | httpError (status : Nat) (resetHeader : Option Int)
  | otherError
deriving DecidableEq

/-- Reset time used by both wrappers: the x-rateLimit-reset header if present,
else time.time() + 60 (the default argument of headers.get). -/
def rateLimitReset (resetHeader : Option Int) (now : Int) : Int :=
  resetHeader.getD (now + 60)

/-- Condition under which the walker's retries_wrapper takes its rate-limit
branch: the raised exception is an httpx.HTTPStatusError whose status code is
in (403, 429).  Presence of the reset header is not consulted. -/
def walkerClassifiesRateLimited {α : Type} : Outcome α → Bool
  | .httpError s _ => s == 403 || s == 429
  | _ => false

/-- Rate-limit classification as worded by the spec (section 4.2): an
HTTP-like status in 403/429 together with an epoch reset-time header.
Modelled from the spec for comparison against walkerClassifiesRateLimited. -/
def specRateLimitClassified {α : Type} : Outcome α → Bool
  | .httpError s (some _) => s == 403 || s == 429
  | _ => false

/-- Condition under which src/utils/retries_wrapper.py takes its rate-limit
branch: hasattr(e, 'response') and hasattr(e.response, 'headers'), which holds
exactly for httpx.HTTPStatusError (any status) and for no plain exception. -/
def utilsClassifiesRateLimited {α : Type} : Outcome α → Bool
  | .httpError _ _ => true
  | _ => false

/-- Result of a call to the walker's retries_wrapper. -/
inductive RetryResult (α : Type) where
  | value (a : α)
  | returnedNone
  | runtimeError
deriving DecidableEq

/-- Observable trace of one call to the walker's retries_wrapper: the final
result, the list of sleep durations in order, and how many times the wrapped
operation was invoked. -/
structure RetryTrace (α : Type) where
  result : RetryResult α
  sleeps : List Int
  invocations : Nat
deriving DecidableEq

/-- Loop body of retries_wrapper from src/services/github/utils/repo_walker.py.

The Python loop is for attempt in range(retries) with a mutable delay.  Here
remaining counts the iterations still to run, so attempt + remaining = retries
throughout and the Python guard attempt > retries - 2 (true exactly on the
final iteration) becomes remaining == 1, i.e. the recursion sees remaining = 0
after decrementing.  Faithfully modeled Python behaviors:

* try: return await fun() runs the finally block even on success, so a
  success on the final iteration executes the bare raise, which (the prior
  exception having been handled) raises RuntimeError instead of returning;
  a success on an earlier iteration first sleeps the residual delay.
* the rate-limit branch sleeps inside the except handler and then again in
  the finally block, so the delay is slept twice before the next attempt;
* an httpx.HTTPStatusError whose status is not 403/429 matches the first
  except clause but updates nothing, leaving delay unchanged;
* any other exception sets delay = 2 ** attempt with no upper cap;
* exhaustion executes the bare raise in the finally block after the except
  handler has completed, so RuntimeError is raised, not the original error
  and not the None promised by the docstring;
* retries = 0 skips the loop and falls through, returning None. -/
def walkerRetriesGo {α : Type} (attempts : Nat → Outcome α) (now : Int) :
    Nat → Nat → Int → RetryTrace α
  | 0, attempt, _ => ⟨.returnedNone, [], attempt⟩
  | remaining + 1, attempt, delay =>
    let isLast : Bool := remaining == 0
    match attempts attempt with
    | .ok a =>
      if isLast then ⟨.runtimeError, [], attempt + 1⟩
      else ⟨.value a, [delay], attempt + 1⟩
    | .httpError s reset =>
      if s == 403 || s == 429 then
        let d : Int := max (rateLimitReset reset now - now) 30
        if isLast then ⟨.runtimeError, [d], attempt + 1⟩
        else
          let rest := walkerRetriesGo attempts now remaining (attempt + 1) d
          ⟨rest.result, d :: d :: rest.sleeps, rest.invocations⟩
      else
        if isLast then ⟨.runtimeError, [], attempt + 1⟩
        else
          let rest := walkerRetriesGo attempts now remaining (attempt + 1) delay
          ⟨rest.result, delay :: rest.sleeps, rest.invocations⟩
    | .otherError =>
      let d : Int := 2 ^ attempt
      if isLast then ⟨.runtimeError, [], attempt + 1⟩
      else
        let rest := walkerRetriesGo attempts now remaining (attempt + 1) d
        ⟨rest.result, d :: rest.sleeps, rest.invocations⟩

/-- retries_wrapper of src/services/github/utils/repo_walker.py: run the loop
from attempt 0 with delay initialized to 0.0. -/
def walkerRetries {α : Type} (attempts : Nat → Outcome α) (retries : Nat) (now : Int) :
    RetryTrace α :=
  walkerRetriesGo attempts now retries 0 0

/-- Result of a call to src/utils/retries_wrapper.py: the value, or the
re-raised last exception, or the RuntimeError raised when retries = 0 (no
last exception recorded). -/
inductive UtilsResult (α : Type) where
  | value (a : α)
  | raisedLast (e : Outcome α)
  | raisedRuntimeError
deriving DecidableEq

/-- Observable trace of one call to src/utils/retries_wrapper.py. -/
structure UtilsTrace (α : Type) where
  result : UtilsResult α
  sleeps : List Int
  invocations : Nat
deriving DecidableEq

/-- Loop body of src/utils/retries_wrapper.py, with the same
remaining-counts-down encoding of for attempt in range(retries).  On success
it returns immediately (no finally block exists here); on failure it computes
the delay (rate-limit formula when the exception has response headers, else
min(2 ** (5 + attempt), 120)) and sleeps it unless this was the final
iteration; on exhaustion it re-raises the last exception. -/
def utilsRetriesGo {α : Type} (attempts : Nat → Outcome α) (now : Int) :
    Nat → Nat → Option (Outcome α) → UtilsTrace α
  | 0, attempt, last =>
    match last with
    | some e => ⟨.raisedLast e, [], attempt⟩
    | none => ⟨.raisedRuntimeError, [], attempt⟩
  | remaining + 1, attempt, _ =>
    match attempts attempt with
    | .ok a => ⟨.value a, [], attempt + 1⟩
    | .httpError s reset =>
      let d : Int := max (rateLimitReset reset now - now) 30
      let rest := utilsRetriesGo attempts now remaining (attempt + 1) (some (.httpError s reset))
      if remaining == 0 then ⟨rest.result, rest.sleeps, rest.invocations⟩
      else ⟨rest.result, d :: rest.sleeps, rest.invocations⟩
    | .otherError =>
      let d : Int := min (2 ^ (5 + attempt)) 120
      let rest := utilsRetriesGo attempts now remaining (attempt + 1) (some .otherError)
      if remaining == 0 then ⟨rest.result, rest.sleeps, rest.invocations⟩
      else ⟨rest.result, d :: rest.sleeps, rest.invocations⟩

/-- retries_wrapper of src/utils/retries_wrapper.py. -/
def utilsRetries {α : Type} (attempts : Nat → Outcome α) (retries : Nat) (now : Int) :
    UtilsTrace α :=
  utilsRetriesGo attempts now retries 0 none

/-! ## Repository walker

RepoWalker.scrape / _walk / _handle_blob / _decode_blob from
src/services/github/utils/repo_walker.py, with every remote call made through
retries_wrapper at retries=3.  Since retries is positive, that wrapper either
returns the fetched value or raises (RuntimeError, from the bare raise in its
finally block); it never returns None.  A remote call is therefore modeled as
Option-valued: some v for a fetch that succeeds within the retry budget, none
for one whose retries are exhausted, in which case the wrapper's exception
propagates out of the calling coroutine (nothing in _walk, _handle_blob or
_decode_blob catches it, and asyncio.gather re-raises it to the parent).

The cooperative traversal is modeled sequentially: every task spawned at a
level is run to completion and its bucket appends and remote calls are
recorded; the errored flag records whether any exception propagated out of
this subtree (in which case scrape re-raises instead of returning the
bucket).  This over-approximates the calls and appends of any real
interleaving, which is sound for the safety invariants proved below.

External decoders are embedded by their results: a blob's base64 payload
carries the byte string it decodes to (none when base64.b64decode raises
binascii.Error), and a byte string carries the text produced by
bytes.decode("utf-8", errors="replace"), which is total - with errors set to
replace, no byte sequence raises UnicodeDecodeError. -/

/-- Dataclass RepoFile. -/
structure RepoFile where
  path : String
  content : String
deriving DecidableEq

/-- Object type tag of a git tree entry: the strings "blob", "tree", or
anything else (skipped by _walk). -/
inductive EntryType where
  | blob
  | tree
  | other
deriving DecidableEq

/-- One entry of a GitTreeResponseModel: entry name (path field), type tag,
and sha.  Shas are modeled as naturals. -/
structure TreeEntry where
  path : String
  type : EntryType
  sha : Nat
deriving DecidableEq

/-- Result of bytes.decode("utf-8", errors="replace") on some byte string:
always a text, never an exception. -/
structure ByteData where
  text : String
deriving DecidableEq

/-- A base64 payload, embedded by its decoding: none when base64.b64decode
raises binascii.Error on it. -/
structure Base64Content where
  decoded : Option ByteData
deriving DecidableEq

/-- A GitBlobResponseModel: the encoding marker and the optional content. -/
structure BlobResponse where
  encoding : String
  content : Option Base64Content
deriving DecidableEq

/-- The remote GitHub client as seen through retries_wrapper at retries=3:
getBranch yields the root tree sha (none: branch resolution exhausted its
retries and the wrapper raised), getTree yields a tree listing, getBlob a
blob response. -/
structure Remote where
  getBranch : Option Nat
  getTree : Nat → Option (List TreeEntry)
  getBlob : Nat → Option BlobResponse

/-- One remote call issued by the walker, tagged with the path it was issued
for: a tree listing (dirPath = none only for the root tree, which has no
path) or a blob fetch for a file path. -/
inductive RemoteCall where
  | getTreeCall (sha : Nat) (dirPath : Option String)
  | getBlobCall (sha : Nat) (path : String)
deriving DecidableEq

/-- Everything observable about one (sub)traversal: the RepoFile objects
appended to the shared bucket, the remote calls issued, and whether an
exception propagated out of this subtree. -/
structure WalkOut where
  files : List RepoFile
  calls : List RemoteCall
  errored : Bool
deriving DecidableEq

/-- RepoWalker._decode_blob after a successful fetch: reject a non-base64
encoding marker or missing content, return None when b64decode raises, and
otherwise return the replacement-decoded text (the UnicodeDecodeError catch
is unreachable since errors="replace" never raises). -/
def decodeBlobResponse (blob : BlobResponse) : Option String :=
  if blob.encoding ≠ "base64" then none
  else
    match blob.content with
    | none => none
    | some c =>
      match c.decoded with
      | none => none
      | some raw => some raw.text

/-- RepoWalker._handle_blob: fetch the blob (an exhausted fetch raises, which
propagates: errored = true), decode it, and append RepoFile(path, text) only
when the decoded text is truthy - Python's if text: is false both for None
and for the empty string. -/
def handleBlob (remote : Remote) (sha : Nat) (path : String) : WalkOut :=
  match remote.getBlob sha with
  | none => ⟨[], [.getBlobCall sha path], true⟩
  | some blob =>
    match decodeBlobResponse blob with
    | none => ⟨[], [.getBlobCall sha path], false⟩
    | some t =>
      if t.isEmpty then ⟨[], [.getBlobCall sha path], false⟩
      else ⟨[⟨path, t⟩], [.getBlobCall sha path], false⟩

/-- Body of the per-entry branch of RepoWalker._walk, parametrized by the
recursive sub-walk (walk passes itself at the next fuel).  full_path is
prefix + entry name (the Python code special-cases an empty prefix, but
string concatenation with the empty prefix is the identity); a rejected or
unknown-type entry spawns nothing. -/
def walkEntry (remote : Remote) (pf : PathFilter)
    (recur : Nat → String → Option String → WalkOut)
    (pre : String) (obj : TreeEntry) : WalkOut :=
  let fullPath := pre ++ obj.path
  match obj.type with
  | .blob =>
    if pf.matchFile fullPath then handleBlob remote obj.sha fullPath
    else ⟨[], [], false⟩
  | .tree =>
    if pf.matchDirectory fullPath then recur obj.sha (fullPath ++ "/") (some fullPath)
    else ⟨[], [], false⟩
  | .other => ⟨[], [], false⟩

/-- The fan-out over the entries of one tree listing, joined by
asyncio.gather: all spawned tasks run, their appends and calls accumulate,
and an exception from any of them propagates. -/
def walkEntries (remote : Remote) (pf : PathFilter)
    (recur : Nat → String → Option String → WalkOut)
    (pre : String) : List TreeEntry → WalkOut
  | [] => ⟨[], [], false⟩
  | obj :: rest =>
    let first := walkEntry remote pf recur pre obj
    let others := walkEntries remote pf recur pre rest
    ⟨first.files ++ others.files, first.calls ++ others.calls,
      first.errored || others.errored⟩

/-- RepoWalker._walk: fetch the tree listing for sha (under the semaphore),
then spawn a task per accepted entry and gather them.  An exhausted tree
fetch makes retries_wrapper raise, so the subtree contributes nothing and
errored = true.  Traversal depth is bounded by fuel, which exceeds the finite
depth of any acyclic remote tree; a fuel-starved node issues no calls. -/
def walk (remote : Remote) (pf : PathFilter) :
    Nat → Nat → String → Option String → WalkOut
  | 0, _, _, _ => ⟨[], [], true⟩
  | fuel + 1, sha, pre, dirPath =>
    match remote.getTree sha with
    | none => ⟨[], [.getTreeCall sha dirPath], true⟩
    | some entries =>
      let sub := walkEntries remote pf
        (fun s p d => walk remote pf fuel s p d) pre entries
      ⟨sub.files, .getTreeCall sha dirPath :: sub.calls, sub.errored⟩

/-- RepoWalker.scrape up to the walk: resolve the branch (an exhausted
getBranch raises and aborts the harvest), then walk the root tree with the
empty prefix. -/
def scrapeWalkOut (remote : Remote) (pf : PathFilter) (fuel : Nat) : WalkOut :=
  match remote.getBranch with
  | none => ⟨[], [], true⟩
  | some root => walk remote pf fuel root "" none

/-- RepoWalker.scrape: the bucket is returned to the caller only when no
exception propagated; otherwise scrape raises. -/
def scrape (remote : Remote) (pf : PathFilter) (fuel : Nat) :
    Except Unit (List RepoFile) :=
  let out := scrapeWalkOut remote pf fuel
  if out.errored then .error () else .ok out.files

/-- Default max_workers of RepoWalker.__init__, the semaphore size. -/
def defaultMaxWorkers : Nat := 3

/-! ## Trace lemmas for the retry wrappers -/

/-- One-step unfolding of the walker's retry loop on a nonzero remaining
count (definitional). -/
theorem walkerRetriesGo_succ {α : Type} (attempts : Nat → Outcome α) (now : Int)
    (m attempt : Nat) (delay : Int) :
    walkerRetriesGo attempts now (m + 1) attempt delay
      = match attempts attempt with
        | .ok a =>
          if (m == 0 : Bool) then ⟨.runtimeError, [], attempt + 1⟩
          else ⟨.value a, [delay], attempt + 1⟩
        | .httpError s reset =>
          if s == 403 || s == 429 then
            let d : Int := max (rateLimitReset reset now - now) 30
            if (m == 0 : Bool) then ⟨.runtimeError, [d], attempt + 1⟩
            else
              let rest := walkerRetriesGo attempts now m (attempt + 1) d
              ⟨rest.result, d :: d :: rest.sleeps, rest.invocations⟩
          else
            if (m == 0 : Bool) then ⟨.runtimeError, [], attempt + 1⟩
            else
              let rest := walkerRetriesGo attempts now m (attempt + 1) delay
              ⟨rest.result, delay :: rest.sleeps, rest.invocations⟩
        | .otherError =>
          let d : Int := 2 ^ attempt
          if (m == 0 : Bool) then ⟨.runtimeError, [], attempt + 1⟩
          else
            let rest := walkerRetriesGo attempts now m (attempt + 1) d
            ⟨rest.result, d :: rest.sleeps, rest.invocations⟩ := rfl

/-- One-step unfolding of the loop of src/utils/retries_wrapper.py on a
nonzero remaining count (definitional). -/
theorem utilsRetriesGo_succ {α : Type} (attempts : Nat → Outcome α) (now : Int)
    (m attempt : Nat) (last : Option (Outcome α)) :
    utilsRetriesGo attempts now (m + 1) attempt last
      = match attempts attempt with
        | .ok a => ⟨.value a, [], attempt + 1⟩
        | .httpError s reset =>
          let d : Int := max (rateLimitReset reset now - now) 30
          let rest := utilsRetriesGo attempts now m (attempt + 1) (some (.httpError s reset))
          if (m == 0 : Bool) then ⟨rest.result, rest.sleeps, rest.invocations⟩
          else ⟨rest.result, d :: rest.sleeps, rest.invocations⟩
        | .otherError =>
          let d : Int := min (2 ^ (5 + attempt)) 120
          let rest := utilsRetriesGo attempts now m (attempt + 1) (some .otherError)
          if (m == 0 : Bool) then ⟨rest.result, rest.sleeps, rest.invocations⟩
          else ⟨rest.result, d :: rest.sleeps, rest.invocations⟩ := rfl

/-- Sleep schedule of src/utils/retries_wrapper.py on a run whose attempts all
fail with a plain (header-less) exception: one capped exponential delay per
non-final iteration. -/
theorem utilsRetriesGo_other_sleeps {α : Type} (attempts : Nat → Outcome α) (now : Int)
    (h : ∀ k, attempts k = .otherError) :
    ∀ (remaining attempt : Nat) (last : Option (Outcome α)),
      (utilsRetriesGo attempts now remaining attempt last).sleeps
        = (List.range' attempt (remaining - 1)).map (fun k => min ((2 : Int) ^ (5 + k)) 120) := by
  intro remaining
  induction remaining with
  | zero =>
    intro attempt last
    cases last <;> rfl
  | succ m ih =>
    intro attempt last
    rw [utilsRetriesGo_succ, h attempt]
    match m with
    | 0 => rfl
    | m' + 1 =>
      dsimp only
      rw [ih (attempt + 1) (some .otherError)]
      rw [show m' + 1 + 1 - 1 = m' + 1 from rfl, List.range'_succ]
      rfl

/-- Sleep schedule of the walker's retries_wrapper on a run whose attempts
all fail with a non-HTTP exception: uncapped powers of two, one per non-final
iteration. -/
theorem walkerRetriesGo_other_sleeps {α : Type} (attempts : Nat → Outcome α) (now : Int)
    (h : ∀ k, attempts k = .otherError) :
    ∀ (remaining attempt : Nat) (delay : Int),
      (walkerRetriesGo attempts now remaining attempt delay).sleeps
        = (List.range' attempt (remaining - 1)).map (fun k => (2 : Int) ^ k) := by
  intro remaining
  induction remaining with
  | zero => intro attempt delay; rfl
  | succ m ih =>
    intro attempt delay
    rw [walkerRetriesGo_succ, h attempt]
    match m with
    | 0 => rfl
    | m' + 1 =>
      dsimp only
      rw [ih (attempt + 1)]
      rw [show m' + 1 + 1 - 1 = m' + 1 from rfl, List.range'_succ]
      rfl

/-- Sleep schedule of the walker's retries_wrapper on a run whose attempts
all fail with an httpx.HTTPStatusError outside 403/429: the delay variable is
never updated, so the residual delay is slept unchanged on every non-final
iteration. -/
theorem walkerRetriesGo_http_sleeps {α : Type} (attempts : Nat → Outcome α) (now : Int)
    (s : Nat) (reset : Option Int) (hs : s ≠ 403 ∧ s ≠ 429)
    (h : ∀ k, attempts k = .httpError s reset) :
    ∀ (remaining attempt : Nat) (delay : Int),
      (walkerRetriesGo attempts now remaining attempt delay).sleeps
        = List.replicate (remaining - 1) delay := by
  have hb : (s == 403 || s == 429) = false := by
    simp only [Bool.or_eq_false_iff, beq_eq_false_iff_ne]
    exact hs
  intro remaining
  induction remaining with
  | zero => intro attempt delay; rfl
  | succ m ih =>
    intro attempt delay
    rw [walkerRetriesGo_succ, h attempt]
    match m with
    | 0 => simp only [hb]; rfl
    | m' + 1 =>
      simp only [hb]
      rw [if_neg Bool.false_ne_true, ih (attempt + 1)]
      rfl

/-! ## Claim theorems: retry wrappers -/

/-- C9: calling the walker's retries_wrapper with retries = 0 skips the loop
entirely and falls through: it returns None, never invokes the operation,
never sleeps, and raises nothing. -/
theorem C9_zero_retries_returns_none {α : Type} (attempts : Nat → Outcome α) (now : Int) :
    walkerRetries attempts 0 now = ⟨.returnedNone, [], 0⟩ := rfl

/-- C4 (code-bug evidence): in the walker's retries_wrapper a success on the
last allowed attempt does not return the result - the bare raise in the
finally block fires with no active exception and RuntimeError replaces the
return - and a success on an earlier attempt is followed by a sleep of the
residual delay before the value is returned.  The standalone wrapper in
src/utils/retries_wrapper.py behaves as the claim states: immediate return,
no trailing sleep, no error. -/
theorem C4_success_behavior :
    walkerRetries (fun _ => Outcome.ok 42) 1 0 = ⟨.runtimeError, [], 1⟩ ∧
    walkerRetries (fun k => if k = 0 then Outcome.otherError else Outcome.ok 42) 3 0
      = ⟨.value 42, [1, 1], 2⟩ ∧
    utilsRetries (fun _ => Outcome.ok 42) 1 0 = ⟨.value 42, [], 1⟩ ∧
    utilsRetries (fun k => if k = 0 then Outcome.otherError else Outcome.ok 42) 3 0
      = ⟨.value 42, [32], 2⟩ :=
  ⟨rfl, rfl, rfl, rfl⟩

/-- C5 counterexample: in the walker's retries_wrapper, a run of non-HTTP
failures at retries = 9 produces the uncapped delay 2 to the 7th = 128 > 120
before the ninth attempt, and a run of HTTP 500 failures (not classified
rate-limited) at retries = 3 sleeps 0 seconds twice - the delay is neither
exponential in the attempt number nor capped as the claim states. -/
theorem C5_counterexample :
    ¬ (∀ d ∈ (walkerRetries (fun _ => (Outcome.otherError : Outcome Nat)) 9 0).sleeps,
        d ≤ 120) ∧
    (walkerRetries (fun _ => (Outcome.httpError 500 none : Outcome Nat)) 3 0).sleeps
      = [0, 0] :=
  ⟨by decide, rfl⟩

/-- C5 amended: the capped base-2 exponential backoff described by the claim
is implemented only by src/utils/retries_wrapper.py, whose delay before the
attempt following failed attempt k is min(2 ^ (5 + k), 120), hence at most
120.  The walker's retries_wrapper instead sleeps the uncapped 2 ^ k after a
non-HTTP failure and re-sleeps the unchanged residual delay (initially 0)
after an HTTP failure outside 403/429. -/
theorem C5_amended :
    (∀ (attempts : Nat → Outcome Nat) (n : Nat) (now : Int),
      (∀ k, attempts k = .otherError) →
      (utilsRetries attempts n now).sleeps
        = (List.range (n - 1)).map (fun k => min ((2 : Int) ^ (5 + k)) 120)) ∧
    (∀ (attempts : Nat → Outcome Nat) (n : Nat) (now : Int),
      (∀ k, attempts k = .otherError) →
      ∀ d ∈ (utilsRetries attempts n now).sleeps, d ≤ 120) ∧
    (∀ (attempts : Nat → Outcome Nat) (n : Nat) (now : Int),
      (∀ k, attempts k = .otherError) →
      (walkerRetries attempts n now).sleeps
        = (List.range (n - 1)).map (fun k => (2 : Int) ^ k)) ∧
    (∀ (attempts : Nat → Outcome Nat) (n : Nat) (now : Int) (s : Nat) (reset : Option Int),
      (s ≠ 403 ∧ s ≠ 429) → (∀ k, attempts k = .httpError s reset) →
      (walkerRetries attempts n now).sleeps = List.replicate (n - 1) 0) := by
  refine ⟨?_, ?_, ?_, ?_⟩
  · intro attempts n now h
    rw [utilsRetries, utilsRetriesGo_other_sleeps attempts now h, List.range_eq_range']
  · intro attempts n now h d hd
    rw [utilsRetries, utilsRetriesGo_other_sleeps attempts now h] at hd
    obtain ⟨k, _, rfl⟩ := List.mem_map.mp hd
    exact min_le_right _ _
  · intro attempts n now h
    rw [walkerRetries, walkerRetriesGo_other_sleeps attempts now h, List.range_eq_range']
  · intro attempts n now s reset hs h
    rw [walkerRetries, walkerRetriesGo_http_sleeps attempts now s reset hs h]

/-- Witness for C5 amended at concrete runs. -/
theorem C5_amended_witness :
    (utilsRetries (fun _ => (Outcome.otherError : Outcome Nat)) 3 0).sleeps = [32, 64] ∧
    (∀ d ∈ (utilsRetries (fun _ => (Outcome.otherError : Outcome Nat)) 5 7).sleeps,
      d ≤ 120) ∧
    (walkerRetries (fun _ => (Outcome.otherError : Outcome Nat)) 3 0).sleeps = [1, 2] ∧
    (walkerRetries (fun _ => (Outcome.httpError 500 none : Outcome Nat)) 3 0).sleeps
      = [0, 0] := by
  refine ⟨?_, ?_, ?_, ?_⟩
  · rw [C5_amended.1 _ 3 0 (fun _ => rfl)]; rfl
  · exact C5_amended.2.1 _ 5 7 (fun _ => rfl)
  · rw [C5_amended.2.2.1 _ 3 0 (fun _ => rfl)]; rfl
  · rw [C5_amended.2.2.2 _ 3 0 500 none (by omega) (fun _ => rfl)]; rfl

/-- C6 counterexample: the walker's retries_wrapper classifies an
httpx.HTTPStatusError with status 403 and no reset header as rate-limited
(the spec-worded classification does not), and a rate-limited failure with
reset 100 seconds ahead at attempt 1 of 3 is followed by two 100-second
sleeps before the retry (and a third after the retry succeeds), not by a
single delay of max(resetTime - now, 30). -/
theorem C6_counterexample :
    walkerClassifiesRateLimited (Outcome.httpError 403 none : Outcome Nat) = true ∧
    specRateLimitClassified (Outcome.httpError 403 none : Outcome Nat) = false ∧
    walkerRetries (fun k => if k = 0 then Outcome.httpError 403 (some 100) else Outcome.ok 7)
        3 0
      = ⟨.value 7, [100, 100, 100], 2⟩ :=
  ⟨rfl, rfl, rfl⟩

/-- C6 amended: the walker's retries_wrapper classifies a failure as
rate-limited exactly when it is an httpx.HTTPStatusError with status 403 or
429, regardless of header presence (a missing x-rateLimit-reset defaults to
now + 60); for each rate-limited failure before the final iteration it
sleeps d = max(resetTime - now, 30) twice - once in the except handler and
once in the loop's finally block - and on the final iteration it sleeps d
once and then raises. -/
theorem C6_amended :
    (∀ (o : Outcome Nat), walkerClassifiesRateLimited o = true ↔
      ∃ s r, o = Outcome.httpError s r ∧ (s = 403 ∨ s = 429)) ∧
    (∀ (attempts : Nat → Outcome Nat) (now delay : Int) (m attempt s : Nat)
        (r : Option Int),
      attempts attempt = Outcome.httpError s r → (s = 403 ∨ s = 429) →
      (walkerRetriesGo attempts now (m + 2) attempt delay).sleeps
        = max (rateLimitReset r now - now) 30
            :: max (rateLimitReset r now - now) 30
            :: (walkerRetriesGo attempts now (m + 1) (attempt + 1)
                  (max (rateLimitReset r now - now) 30)).sleeps) ∧
    (∀ (attempts : Nat → Outcome Nat) (now delay : Int) (attempt s : Nat)
        (r : Option Int),
      attempts attempt = Outcome.httpError s r → (s = 403 ∨ s = 429) →
      walkerRetriesGo attempts now 1 attempt delay
        = ⟨.runtimeError, [max (rateLimitReset r now - now) 30], attempt + 1⟩) := by
  refine ⟨?_, ?_, ?_⟩
  · intro o
    cases o with
    | ok a => simp [walkerClassifiesRateLimited]
    | httpError s r =>
      simp only [walkerClassifiesRateLimited, Bool.or_eq_true, beq_iff_eq,
        Outcome.httpError.injEq]
      constructor
      · intro hs; exact ⟨s, r, ⟨rfl, rfl⟩, hs⟩
      · rintro ⟨s', r', ⟨rfl, rfl⟩, hs⟩; exact hs
    | otherError => simp [walkerClassifiesRateLimited]
  · intro attempts now delay m attempt s r ha hs
    have hb : (s == 403 || s == 429) = true := by
      rcases hs with h | h <;> simp [h]
    rw [show m + 2 = (m + 1) + 1 from rfl, walkerRetriesGo_succ, ha]
    simp only [hb]
    rfl
  · intro attempts now delay attempt s r ha hs
    have hb : (s == 403 || s == 429) = true := by
      rcases hs with h | h <;> simp [h]
    rw [show (1 : Nat) = 0 + 1 from rfl, walkerRetriesGo_succ, ha]
    simp only [hb]
    rfl

/-- Witness for C6 amended at concrete inputs. -/
theorem C6_amended_witness :
    walkerClassifiesRateLimited (Outcome.httpError 429 (some 80) : Outcome Nat) = true ∧
    (walkerRetriesGo (fun _ => (Outcome.httpError 429 (some 50) : Outcome Nat)) 0 2 0 0).sleeps
      = [50, 50, 50] := by
  constructor
  · exact (C6_amended.1 _).mpr ⟨429, some 80, rfl, Or.inr rfl⟩
  · rw [C6_amended.2.1 (fun _ => (Outcome.httpError 429 (some 50) : Outcome Nat)) 0 0 0 0 429
      (some 50) rfl (Or.inr rfl)]
    rw [C6_amended.2.2 (fun _ => (Outcome.httpError 429 (some 50) : Outcome Nat)) 0
      (max (rateLimitReset (some 50) 0 - 0) 30) 1 429 (some 50) rfl (Or.inr rfl)]
    rfl

/-! ## Claim theorems: path filter -/

/-- Exclude-only file filter used as the C2 counterexample. -/
def excludeOnlyFileFilter : PathFilter :=
  ⟨[], [fun s => s == "bad"], [], []⟩

/-- C2 counterexample: with no include patterns and one exclude pattern for
files, a path matching none of the excludes is still rejected - the
conjunction any(includes) and not any(excludes) is false because any of an
empty list is false. -/
theorem C2_counterexample :
    excludeOnlyFileFilter.include_file_patterns = [] ∧
    excludeOnlyFileFilter.exclude_file_patterns ≠ [] ∧
    excludeOnlyFileFilter.exclude_file_patterns.any (fun p => p "good") = false ∧
    excludeOnlyFileFilter.match "good" .FILE = false :=
  ⟨rfl, List.cons_ne_nil _ _, rfl, rfl⟩

/-- C2 amended: in the PathFilter used by the walker
(src/services/github/utils/path_filter.py), an empty include list together
with a nonempty exclude list for a kind rejects every path of that kind.
Only the standalone PathFilter of src/path_filter.py implements the claimed
behavior: with no include patterns, a path passes exactly when no exclude
pattern matches it. -/
theorem C2_amended :
    (∀ (pf : PathFilter) (path : String) (kind : FilteredObjectType),
      includesOf pf kind = [] → excludesOf pf kind ≠ [] →
      pf.match path kind = false) ∧
    (∀ (spf : SimplePathFilter) (path : String),
      spf.includePatterns = [] →
      (spf.match path = true ↔ spf.excludePatterns.any (fun p => p path) = false)) := by
  constructor
  · intro pf path kind h1 h2
    cases kind with
    | FILE =>
      simp only [includesOf] at h1
      simp only [excludesOf] at h2
      obtain ⟨x, l, hxl⟩ := List.exists_cons_of_ne_nil h2
      simp [PathFilter.match, PathFilter.matchFile, h1, hxl]
    | DIRECTORY =>
      simp only [includesOf] at h1
      simp only [excludesOf] at h2
      obtain ⟨x, l, hxl⟩ := List.exists_cons_of_ne_nil h2
      simp [PathFilter.match, PathFilter.matchDirectory, h1, hxl]
  · intro spf path h
    simp only [SimplePathFilter.match, h]
    cases hany : spf.excludePatterns.any (fun p => p path) <;> simp [hany]

/-- Witness for C2 amended at concrete filters. -/
theorem C2_amended_witness :
    excludeOnlyFileFilter.match "good" .FILE = false ∧
    ((⟨[], [fun s => s == "bad"]⟩ : SimplePathFilter).match "good" = true ↔
      (⟨[], [fun s => s == "bad"]⟩ : SimplePathFilter).excludePatterns.any
        (fun p => p "good") = false) :=
  ⟨C2_amended.1 excludeOnlyFileFilter "good" .FILE rfl (List.cons_ne_nil _ _),
   C2_amended.2 _ "good" rfl⟩

/-! ## Claim theorems: walker error propagation and blob handling -/

/-- Trivial filter: no patterns configured, every path passes. -/
def noFilter : PathFilter := ⟨[], [], [], []⟩

/-- C1 failing input: a root tree with a subdirectory whose tree listing
exhausts its retries, next to a sibling file that fetches and decodes fine. -/
def c1Remote : Remote :=
  ⟨some 0,
   fun sha => if sha = 0 then some [⟨ "sub", .tree, 1⟩, ⟨ "a.txt", .blob, 2⟩] else none,
   fun sha => if sha = 2 then some ⟨ "base64", some ⟨some ⟨ "hello"⟩⟩⟩ else none⟩

/-- C1 (code-bug evidence): when the tree listing of the non-root directory
sub exhausts its retries, retries_wrapper's bare raise fires (RuntimeError),
nothing in _walk catches it, asyncio.gather re-raises it, and scrape raises
to its caller - even though the sibling file a.txt had already been appended
to the bucket.  The claim's promised outcome (the harvest completes and
returns the sibling's file) does not happen. -/
theorem C1_subtree_failure_propagates :
    scrape c1Remote noFilter 5 = .error () ∧
    (scrapeWalkOut c1Remote noFilter 5).files = [⟨ "a.txt", "hello"⟩] :=
  ⟨rfl, rfl⟩

/-- C3 failing input: a single filtered-in file whose blob fetch exhausts its
retries. -/
def c3FetchFailRemote : Remote :=
  ⟨some 0,
   fun sha => if sha = 0 then some [⟨ "a.txt", .blob, 1⟩] else none,
   fun _ => none⟩

/-- C3 companion input: files whose blobs fail only at the decode stage (bad
encoding marker, invalid base64) next to one healthy file. -/
def c3DecodeRemote : Remote :=
  ⟨some 0,
   fun sha =>
     if sha = 0 then
       some [⟨ "a.txt", .blob, 1⟩, ⟨ "b.txt", .blob, 2⟩, ⟨ "c.txt", .blob, 3⟩]
     else none,
   fun sha =>
     if sha = 1 then some ⟨ "utf-8", some ⟨some ⟨ "x"⟩⟩⟩
     else if sha = 2 then some ⟨ "base64", some ⟨none⟩⟩
     else if sha = 3 then some ⟨ "base64", some ⟨some ⟨ "ok"⟩⟩⟩
     else none⟩

/-- C3 (code-bug evidence): a wrong encoding marker or a base64 decode
failure silently drops just that file and the harvest completes, as the
claim states - but a blob fetch that exhausts its retries makes
retries_wrapper raise RuntimeError, which propagates out of _handle_blob
through asyncio.gather to the scrape caller instead of dropping the file. -/
theorem C3_blob_failure_behavior :
    scrape c3FetchFailRemote noFilter 5 = .error () ∧
    scrape c3DecodeRemote noFilter 5 = .ok [⟨ "c.txt", "ok"⟩] :=
  ⟨rfl, rfl⟩

/-- C10 counterexample input: one filtered-in file whose blob is well-formed
base64 decoding to the empty string. -/
def c10Remote : Remote :=
  ⟨some 0,
   fun sha => if sha = 0 then some [⟨ "a.txt", .blob, 1⟩] else none,
   fun sha => if sha = 1 then some ⟨ "base64", some ⟨some ⟨ ""⟩⟩⟩ else none⟩

/-- C10 counterexample: the blob of a.txt has encoding base64, content
present and valid, and decoding yields the (empty) string - yet the file is
not included in the result, because _handle_blob's truthiness test if text:
is false for the empty string. -/
theorem C10_counterexample :
    decodeBlobResponse ⟨ "base64", some ⟨some ⟨ ""⟩⟩⟩ = some "" ∧
    scrape c10Remote noFilter 5 = .ok [] :=
  ⟨rfl, rfl⟩

/-- Membership in the fan-out output is inherited from membership in any one
entry's output. -/
theorem walkEntries_files_superset (remote : Remote) (pf : PathFilter)
    (recur : Nat → String → Option String → WalkOut) (pre : String) :
    ∀ (entries : List TreeEntry) (obj : TreeEntry), obj ∈ entries →
      ∀ f ∈ (walkEntry remote pf recur pre obj).files,
        f ∈ (walkEntries remote pf recur pre entries).files := by
  intro entries
  induction entries with
  | nil => intro obj h; cases h
  | cons head rest ih =>
    intro obj hmem f hf
    rcases List.mem_cons.mp hmem with h | h
    · subst h
      exact List.mem_append_left _ hf
    · exact List.mem_append_right _ (ih obj h f hf)

/-- Evaluation of _handle_blob on a healthy blob with nonempty decoded text:
exactly one RepoFile is appended and one blob call issued. -/
theorem handleBlob_append (remote : Remote) (sha : Nat) (path : String)
    (blob : BlobResponse) (c : Base64Content) (raw : ByteData)
    (hblob : remote.getBlob sha = some blob) (henc : blob.encoding = "base64")
    (hcontent : blob.content = some c) (hdec : c.decoded = some raw)
    (htext : raw.text ≠ "") :
    handleBlob remote sha path
      = ⟨[⟨path, raw.text⟩], [.getBlobCall sha path], false⟩ := by
  have hne : raw.text.isEmpty = false := by
    cases hempty : raw.text.isEmpty
    · rfl
    · exact absurd ((String.isEmpty_iff raw.text).mp hempty) htext
  simp only [handleBlob, hblob, decodeBlobResponse, henc, hcontent, hdec]
  simp [hne]

/-- C10 amended: a successfully fetched blob with the base64 marker, present
content, valid base64 and a nonempty decoded text is appended to the result
under its full path; replacement-mode UTF-8 decoding is total, so only the
empty decoded string (Python falsiness), not a decode error, can drop such a
file. -/
theorem C10_amended (remote : Remote) (pf : PathFilter) (fuel sha : Nat)
    (pre : String) (dp : Option String) (entries : List TreeEntry)
    (obj : TreeEntry) (blob : BlobResponse) (c : Base64Content) (raw : ByteData)
    (htree : remote.getTree sha = some entries) (hmem : obj ∈ entries)
    (htype : obj.type = .blob)
    (hmatch : pf.matchFile (pre ++ obj.path) = true)
    (hblob : remote.getBlob obj.sha = some blob)
    (henc : blob.encoding = "base64") (hcontent : blob.content = some c)
    (hdec : c.decoded = some raw) (htext : raw.text ≠ "") :
    (⟨pre ++ obj.path, raw.text⟩ : RepoFile)
      ∈ (walk remote pf (fuel + 1) sha pre dp).files := by
  have hentry : (⟨pre ++ obj.path, raw.text⟩ : RepoFile)
      ∈ (walkEntry remote pf (fun s p d => walk remote pf fuel s p d) pre obj).files := by
    simp only [walkEntry, htype]
    rw [if_pos hmatch,
      handleBlob_append remote obj.sha (pre ++ obj.path) blob c raw hblob henc hcontent
        hdec htext]
    simp
  have := walkEntries_files_superset remote pf
    (fun s p d => walk remote pf fuel s p d) pre entries obj hmem _ hentry
  rw [walk, htree]
  exact this

/-- Witness input for C10 amended: a healthy nonempty file. -/
def c10WitnessRemote : Remote :=
  ⟨some 0,
   fun sha => if sha = 0 then some [⟨ "a.txt", .blob, 1⟩] else none,
   fun sha => if sha = 1 then some ⟨ "base64", some ⟨some ⟨ "hi"⟩⟩⟩ else none⟩

/-- Witness for C10 amended at a concrete remote. -/
theorem C10_amended_witness :
    (⟨ "a.txt", "hi"⟩ : RepoFile) ∈ (walk c10WitnessRemote noFilter 5 0 "" none).files :=
  C10_amended c10WitnessRemote noFilter 4 0 "" none [⟨ "a.txt", .blob, 1⟩]
    ⟨ "a.txt", .blob, 1⟩ ⟨ "base64", some ⟨some ⟨ "hi"⟩⟩⟩ ⟨some ⟨ "hi"⟩⟩ ⟨ "hi"⟩
    rfl (List.mem_singleton.mpr rfl) rfl rfl rfl rfl rfl rfl (by decide)

/-! ## Invariants of the walk (claim C7)

A real git tree listing never repeats an entry name and entry names contain
no slash; WFRemote captures this well-formedness of the remote data. -/

/-- Well-formedness of the remote tree data: per listing, entry names are
pairwise distinct and slash-free. -/
def WFRemote (remote : Remote) : Prop :=
  ∀ sha l, remote.getTree sha = some l →
    (l.map TreeEntry.path).Nodup ∧ ∀ e ∈ l, '/' ∉ e.path.data

/-- Data of the one-character string used as the path separator. -/
theorem slash_data : ("/" : String).data = ['/'] := rfl

/-- Left cancellation for string append, via the underlying character
lists. -/
theorem string_append_cancel {p a b : String} (h : p ++ a = p ++ b) : a = b := by
  apply String.ext
  have hd := congrArg String.data h
  rw [String.data_append, String.data_append] at hd
  exact List.append_cancel_left hd

/-- A word before the first slash is determined: if two slash-free character
lists are each followed by a slash and the concatenations agree, the lists
agree (and so do the tails). -/
theorem listSlashSplit : ∀ {a b t1 t2 : List Char},
    '/' ∉ a → '/' ∉ b → a ++ '/' :: t1 = b ++ '/' :: t2 → a = b ∧ t1 = t2 := by
  intro a
  induction a with
  | nil =>
    intro b t1 t2 _ hb h
    cases b with
    | nil =>
      simp only [List.nil_append, List.cons.injEq] at h
      exact ⟨rfl, h.2⟩
    | cons c bs =>
      simp only [List.nil_append, List.cons_append, List.cons.injEq] at h
      obtain ⟨hc, -⟩ := h
      subst hc
      exact absurd (List.mem_cons_self _ _) hb
  | cons c as ih =>
    intro b t1 t2 ha hb h
    cases b with
    | nil =>
      simp only [List.cons_append, List.nil_append, List.cons.injEq] at h
      obtain ⟨hc, -⟩ := h
      subst hc
      exact absurd (List.mem_cons_self _ _) ha
    | cons c' bs =>
      simp only [List.cons_append, List.cons.injEq] at h
      obtain ⟨hc, htail⟩ := h
      have ha' : '/' ∉ as := fun hm => ha (List.mem_cons_of_mem _ hm)
      have hb' : '/' ∉ bs := fun hm => hb (List.mem_cons_of_mem _ hm)
      obtain ⟨heq, ht⟩ := ih ha' hb' htail
      exact ⟨by rw [hc, heq], ht⟩

/-- The territory of one tree entry: the paths a file spawned from this entry
can carry - the entry's own full path for a blob, or any proper extension
across a slash for a directory. -/
def underEntry (pre name p : String) : Prop :=
  p = pre ++ name ∨ ∃ r, p = pre ++ name ++ "/" ++ r

/-- Territories of distinct slash-free sibling names are disjoint. -/
theorem underEntry_ne {pre n1 n2 p1 p2 : String}
    (h1 : '/' ∉ n1.data) (h2 : '/' ∉ n2.data) (hne : n1 ≠ n2)
    (u1 : underEntry pre n1 p1) (u2 : underEntry pre n2 p2) : p1 ≠ p2 := by
  intro heq
  subst heq
  rcases u1 with e1 | ⟨r1, e1⟩ <;> rcases u2 with e2 | ⟨r2, e2⟩
  · exact hne (string_append_cancel (e1.symm.trans e2))
  · have hd := congrArg String.data (e1.symm.trans e2)
    simp only [String.data_append, slash_data, List.append_assoc,
      List.singleton_append] at hd
    have hcan := List.append_cancel_left hd
    exact h1 (hcan ▸ List.mem_append_right _ (List.mem_cons_self _ _))
  · have hd := congrArg String.data (e2.symm.trans e1)
    simp only [String.data_append, slash_data, List.append_assoc,
      List.singleton_append] at hd
    have hcan := List.append_cancel_left hd
    exact h2 (hcan ▸ List.mem_append_right _ (List.mem_cons_self _ _))
  · have hd := congrArg String.data (e1.symm.trans e2)
    simp only [String.data_append, slash_data, List.append_assoc,
      List.singleton_append] at hd
    have hcan := List.append_cancel_left hd
    exact hne (String.ext (listSlashSplit h1 h2 hcan).1)

/-- The files of _handle_blob all carry the requested path. -/
theorem handleBlob_files (remote : Remote) (sha : Nat) (path : String) :
    ∀ f ∈ (handleBlob remote sha path).files, f.path = path := by
  intro f hf
  unfold handleBlob at hf
  split at hf
  · cases hf
  · split at hf
    · cases hf
    · split at hf
      · cases hf
      · simp only [List.mem_singleton] at hf
        rw [hf]

/-- The files of _handle_blob form a list with no duplicate paths (there is
at most one file). -/
theorem handleBlob_files_nodup (remote : Remote) (sha : Nat) (path : String) :
    (((handleBlob remote sha path).files).map RepoFile.path).Nodup := by
  unfold handleBlob
  split
  · simp
  · split
    · simp
    · split <;> simp

/-- The calls of _handle_blob are exactly the one blob fetch. -/
theorem handleBlob_calls (remote : Remote) (sha : Nat) (path : String) :
    (handleBlob remote sha path).calls = [RemoteCall.getBlobCall sha path] := by
  unfold handleBlob
  split
  · rfl
  · split
    · rfl
    · split <;> rfl

/-- Characterization of the files one entry contributes: an accepted blob
contributes files at exactly its own full path, an accepted directory
contributes the recursive files, everything else contributes nothing. -/
theorem walkEntry_files (remote : Remote) (pf : PathFilter)
    (recur : Nat → String → Option String → WalkOut) (pre : String) (obj : TreeEntry) :
    ∀ f ∈ (walkEntry remote pf recur pre obj).files,
      (obj.type = .blob ∧ pf.matchFile (pre ++ obj.path) = true ∧
        f.path = pre ++ obj.path) ∨
      (obj.type = .tree ∧ pf.matchDirectory (pre ++ obj.path) = true ∧
        f ∈ (recur obj.sha (pre ++ obj.path ++ "/") (some (pre ++ obj.path))).files) := by
  intro f hf
  cases htype : obj.type with
  | blob =>
    simp only [walkEntry, htype] at hf
    cases hm : pf.matchFile (pre ++ obj.path) with
    | false => rw [hm] at hf; simp at hf
    | true =>
      rw [hm] at hf
      simp only [if_true] at hf
      exact Or.inl ⟨rfl, rfl, handleBlob_files remote obj.sha (pre ++ obj.path) f hf⟩
  | tree =>
    simp only [walkEntry, htype] at hf
    cases hm : pf.matchDirectory (pre ++ obj.path) with
    | false => rw [hm] at hf; simp at hf
    | true =>
      rw [hm] at hf
      simp only [if_true] at hf
      exact Or.inr ⟨rfl, rfl, hf⟩
  | other =>
    simp only [walkEntry, htype] at hf
    cases hf

/-- Characterization of the calls one entry issues: a blob fetch at its own
full path, or calls of the recursive walk of an accepted directory. -/
theorem walkEntry_calls (remote : Remote) (pf : PathFilter)
    (recur : Nat → String → Option String → WalkOut) (pre : String) (obj : TreeEntry) :
    ∀ c ∈ (walkEntry remote pf recur pre obj).calls,
      c = RemoteCall.getBlobCall obj.sha (pre ++ obj.path) ∨
      (obj.type = .tree ∧ pf.matchDirectory (pre ++ obj.path) = true ∧
        c ∈ (recur obj.sha (pre ++ obj.path ++ "/") (some (pre ++ obj.path))).calls) := by
  intro c hc
  cases htype : obj.type with
  | blob =>
    simp only [walkEntry, htype] at hc
    cases hm : pf.matchFile (pre ++ obj.path) with
    | false => rw [hm] at hc; simp at hc
    | true =>
      rw [hm] at hc
      simp only [if_true, handleBlob_calls, List.mem_singleton] at hc
      exact Or.inl hc
  | tree =>
    simp only [walkEntry, htype] at hc
    cases hm : pf.matchDirectory (pre ++ obj.path) with
    | false => rw [hm] at hc; simp at hc
    | true =>
      rw [hm] at hc
      simp only [if_true] at hc
      exact Or.inr ⟨rfl, rfl, hc⟩
  | other =>
    simp only [walkEntry, htype] at hc
    cases hc

/-- Decomposition of fan-out files by originating entry. -/
theorem walkEntries_files_mem (remote : Remote) (pf : PathFilter)
    (recur : Nat → String → Option String → WalkOut) (pre : String) :
    ∀ (entries : List TreeEntry), ∀ f ∈ (walkEntries remote pf recur pre entries).files,
      ∃ obj ∈ entries, f ∈ (walkEntry remote pf recur pre obj).files := by
  intro entries
  induction entries with
  | nil => intro f hf; cases hf
  | cons head rest ih =>
    intro f hf
    simp only [walkEntries] at hf
    rcases List.mem_append.mp hf with h | h
    · exact ⟨head, List.mem_cons_self _ _, h⟩
    · obtain ⟨obj, hm, hh⟩ := ih f h
      exact ⟨obj, List.mem_cons_of_mem _ hm, hh⟩

/-- Decomposition of fan-out calls by originating entry. -/
theorem walkEntries_calls_mem (remote : Remote) (pf : PathFilter)
    (recur : Nat → String → Option String → WalkOut) (pre : String) :
    ∀ (entries : List TreeEntry), ∀ c ∈ (walkEntries remote pf recur pre entries).calls,
      ∃ obj ∈ entries, c ∈ (walkEntry remote pf recur pre obj).calls := by
  intro entries
  induction entries with
  | nil => intro c hc; cases hc
  | cons head rest ih =>
    intro c hc
    simp only [walkEntries] at hc
    rcases List.mem_append.mp hc with h | h
    · exact ⟨head, List.mem_cons_self _ _, h⟩
    · obtain ⟨obj, hm, hh⟩ := ih c h
      exact ⟨obj, List.mem_cons_of_mem _ hm, hh⟩

/-- Every file a (sub)walk appends passes the file filter (claim C7, part
one). -/
theorem walk_files_filter (remote : Remote) (pf : PathFilter) :
    ∀ (fuel sha : Nat) (pre : String) (dp : Option String),
      ∀ f ∈ (walk remote pf fuel sha pre dp).files, pf.matchFile f.path = true := by
  intro fuel
  induction fuel with
  | zero => intro sha pre dp f hf; cases hf
  | succ n ih =>
    intro sha pre dp f hf
    rw [walk] at hf
    cases htree : remote.getTree sha with
    | none => rw [htree] at hf; cases hf
    | some entries =>
      rw [htree] at hf
      obtain ⟨obj, hmem, hobj⟩ :=
        walkEntries_files_mem remote pf (fun s p d => walk remote pf n s p d) pre entries f hf
      rcases walkEntry_files remote pf _ pre obj f hobj with ⟨-, hm, hp⟩ | ⟨-, -, hrec⟩
      · rw [hp]; exact hm
      · exact ih obj.sha _ _ f hrec

/-- Every file of a (sub)walk extends the walk's prefix. -/
theorem walk_files_pre (remote : Remote) (pf : PathFilter) :
    ∀ (fuel sha : Nat) (pre : String) (dp : Option String),
      ∀ f ∈ (walk remote pf fuel sha pre dp).files, ∃ r, f.path = pre ++ r := by
  intro fuel
  induction fuel with
  | zero => intro sha pre dp f hf; cases hf
  | succ n ih =>
    intro sha pre dp f hf
    rw [walk] at hf
    cases htree : remote.getTree sha with
    | none => rw [htree] at hf; cases hf
    | some entries =>
      rw [htree] at hf
      obtain ⟨obj, hmem, hobj⟩ :=
        walkEntries_files_mem remote pf (fun s p d => walk remote pf n s p d) pre entries f hf
      rcases walkEntry_files remote pf _ pre obj f hobj with ⟨-, -, hp⟩ | ⟨-, -, hrec⟩
      · exact ⟨obj.path, hp⟩
      · obtain ⟨r, hr⟩ := ih obj.sha _ _ f hrec
        refine ⟨obj.path ++ "/" ++ r, ?_⟩
        rw [hr]
        simp [String.append_assoc]

/-- Every tree-listing call a (sub)walk issues for a path is for an accepted
directory path, provided the walk's own root call is (claim C7, part two). -/
theorem walk_calls_dir (remote : Remote) (pf : PathFilter) :
    ∀ (fuel sha : Nat) (pre : String) (dp : Option String),
      (∀ p, dp = some p → pf.matchDirectory p = true) →
      ∀ c ∈ (walk remote pf fuel sha pre dp).calls, ∀ (sha' : Nat) (p : String),
        c = RemoteCall.getTreeCall sha' (some p) → pf.matchDirectory p = true := by
  intro fuel
  induction fuel with
  | zero => intro sha pre dp hdp c hc; cases hc
  | succ n ih =>
    intro sha pre dp hdp c hc
    rw [walk] at hc
    cases htree : remote.getTree sha with
    | none =>
      rw [htree] at hc
      simp only [List.mem_singleton] at hc
      subst hc
      intro sha' p hcall
      cases hcall
      exact hdp p rfl
    | some entries =>
      rw [htree] at hc
      rcases List.mem_cons.mp hc with h | h
      · subst h
        intro sha' p hcall
        cases hcall
        exact hdp p rfl
      · obtain ⟨obj, hmem, hobj⟩ :=
          walkEntries_calls_mem remote pf (fun s p d => walk remote pf n s p d) pre entries c h
        rcases walkEntry_calls remote pf _ pre obj c hobj with hblob | ⟨-, hm, hrec⟩
        · intro sha' p hcall
          rw [hblob] at hcall
          cases hcall
        · refine ih obj.sha _ _ ?_ c hrec
          intro p hp
          cases hp
          exact hm

/-- Files of one entry stay in that entry's territory. -/
theorem walkEntry_files_under (remote : Remote) (pf : PathFilter)
    (recur : Nat → String → Option String → WalkOut) (pre : String) (obj : TreeEntry)
    (hrecP : ∀ (sha : Nat) (npre : String) (ndp : Option String),
      ∀ f ∈ (recur sha npre ndp).files, ∃ r, f.path = npre ++ r) :
    ∀ f ∈ (walkEntry remote pf recur pre obj).files, underEntry pre obj.path f.path := by
  intro f hf
  rcases walkEntry_files remote pf recur pre obj f hf with ⟨-, -, hp⟩ | ⟨-, -, hrec⟩
  · exact Or.inl hp
  · obtain ⟨r, hr⟩ := hrecP _ _ _ f hrec
    exact Or.inr ⟨r, hr⟩

/-- The files of one entry have pairwise distinct paths, provided recursive
walks do. -/
theorem walkEntry_files_nodup (remote : Remote) (pf : PathFilter)
    (recur : Nat → String → Option String → WalkOut) (pre : String) (obj : TreeEntry)
    (hrecN : ∀ (sha : Nat) (npre : String) (ndp : Option String),
      (((recur sha npre ndp).files).map RepoFile.path).Nodup) :
    (((walkEntry remote pf recur pre obj).files).map RepoFile.path).Nodup := by
  cases htype : obj.type with
  | blob =>
    simp only [walkEntry, htype]
    cases hm : pf.matchFile (pre ++ obj.path) with
    | false => rw [if_neg Bool.false_ne_true]; simp
    | true =>
      rw [if_pos rfl]
      exact handleBlob_files_nodup remote obj.sha (pre ++ obj.path)
  | tree =>
    simp only [walkEntry, htype]
    cases hm : pf.matchDirectory (pre ++ obj.path) with
    | false => rw [if_neg Bool.false_ne_true]; simp
    | true =>
      rw [if_pos rfl]
      exact hrecN _ _ _
  | other => simp [walkEntry, htype]

/-- The fan-out over one listing produces pairwise distinct paths when the
listing is duplicate-free with slash-free names (claim C7, part three). -/
theorem walkEntries_files_nodup (remote : Remote) (pf : PathFilter)
    (recur : Nat → String → Option String → WalkOut) (pre : String)
    (hrecN : ∀ (sha : Nat) (npre : String) (ndp : Option String),
      (((recur sha npre ndp).files).map RepoFile.path).Nodup)
    (hrecP : ∀ (sha : Nat) (npre : String) (ndp : Option String),
      ∀ f ∈ (recur sha npre ndp).files, ∃ r, f.path = npre ++ r) :
    ∀ entries : List TreeEntry, (entries.map TreeEntry.path).Nodup →
      (∀ e ∈ entries, '/' ∉ e.path.data) →
      (((walkEntries remote pf recur pre entries).files).map RepoFile.path).Nodup := by
  intro entries
  induction entries with
  | nil => intro _ _; simp [walkEntries]
  | cons obj rest ih =>
    intro hnd hsf
    rw [List.map_cons, List.nodup_cons] at hnd
    simp only [walkEntries]
    rw [List.map_append]
    refine List.Nodup.append ?_ ?_ ?_
    · exact walkEntry_files_nodup remote pf recur pre obj hrecN
    · exact ih hnd.2 (fun e he => hsf e (List.mem_cons_of_mem _ he))
    · intro x hx hy
      obtain ⟨f1, hf1, rfl⟩ := List.mem_map.mp hx
      obtain ⟨f2, hf2, heq2⟩ := List.mem_map.mp hy
      obtain ⟨obj2, hm2, hobj2⟩ := walkEntries_files_mem remote pf recur pre rest f2 hf2
      have u1 : underEntry pre obj.path f1.path :=
        walkEntry_files_under remote pf recur pre obj hrecP f1 hf1
      have u2 : underEntry pre obj2.path f2.path :=
        walkEntry_files_under remote pf recur pre obj2 hrecP f2 hobj2
      have hne : obj.path ≠ obj2.path := by
        intro hEq
        exact hnd.1 (List.mem_map.mpr ⟨obj2, hm2, hEq.symm⟩)
      exact underEntry_ne (hsf obj (List.mem_cons_self _ _))
        (hsf obj2 (List.mem_cons_of_mem _ hm2)) hne u1 u2 heq2.symm

/-- All files of a walk have pairwise distinct paths over a well-formed
remote. -/
theorem walk_files_nodup (remote : Remote) (pf : PathFilter) (hWF : WFRemote remote) :
    ∀ (fuel sha : Nat) (pre : String) (dp : Option String),
      (((walk remote pf fuel sha pre dp).files).map RepoFile.path).Nodup := by
  intro fuel
  induction fuel with
  | zero => intro sha pre dp; exact List.nodup_nil
  | succ n ih =>
    intro sha pre dp
    rw [walk]
    cases htree : remote.getTree sha with
    | none => exact List.nodup_nil
    | some entries =>
      obtain ⟨hnd, hsf⟩ := hWF sha entries htree
      exact walkEntries_files_nodup remote pf (fun s p d => walk remote pf n s p d) pre
        (fun s p d => ih s p d) (fun s p d => walk_files_pre remote pf n s p d)
        entries hnd hsf

/-- C7: harvest invariants.  Over a well-formed remote, (1) every RepoFile in
the result passes the file filter at its path, (2) every tree-listing call
tagged with a directory path is for an accepted directory (the root listing
carries no path), (3) result paths are pairwise distinct, and (4, 5) a
rejected directory or file entry spawns no task at all: no files, no calls of
any kind, no error - so nothing is ever fetched beneath a rejected prefix. -/
theorem C7_harvest_invariants (remote : Remote) (pf : PathFilter) (fuel : Nat)
    (hWF : WFRemote remote) :
    (∀ f ∈ (scrapeWalkOut remote pf fuel).files, pf.matchFile f.path = true) ∧
    (∀ c ∈ (scrapeWalkOut remote pf fuel).calls, ∀ (sha : Nat) (p : String),
      c = RemoteCall.getTreeCall sha (some p) → pf.matchDirectory p = true) ∧
    (((scrapeWalkOut remote pf fuel).files.map RepoFile.path).Nodup) ∧
    (∀ (recur : Nat → String → Option String → WalkOut) (pre : String) (obj : TreeEntry),
      obj.type = .tree → pf.matchDirectory (pre ++ obj.path) = false →
      walkEntry remote pf recur pre obj = ⟨[], [], false⟩) ∧
    (∀ (recur : Nat → String → Option String → WalkOut) (pre : String) (obj : TreeEntry),
      obj.type = .blob → pf.matchFile (pre ++ obj.path) = false →
      walkEntry remote pf recur pre obj = ⟨[], [], false⟩) := by
  refine ⟨?_, ?_, ?_, ?_, ?_⟩
  · intro f hf
    unfold scrapeWalkOut at hf
    cases hb : remote.getBranch with
    | none => rw [hb] at hf; cases hf
    | some root =>
      rw [hb] at hf
      exact walk_files_filter remote pf fuel root "" none f hf
  · intro c hc sha p hcall
    unfold scrapeWalkOut at hc
    cases hb : remote.getBranch with
    | none => rw [hb] at hc; cases hc
    | some root =>
      rw [hb] at hc
      exact walk_calls_dir remote pf fuel root "" none (fun q hq => by cases hq) c hc sha p hcall
  · unfold scrapeWalkOut
    cases hb : remote.getBranch with
    | none => exact List.nodup_nil
    | some root => exact walk_files_nodup remote pf hWF fuel root "" none
  · intro recur pre obj htype hm
    simp only [walkEntry, htype]
    rw [if_neg (by simp [hm])]
  · intro recur pre obj htype hm
    simp only [walkEntry, htype]
    rw [if_neg (by simp [hm])]

/-- Witness remote for C7: one file and one empty subdirectory. -/
def c7Remote : Remote :=
  ⟨some 0,
   fun sha => if sha = 0 then some [⟨ "a.txt", .blob, 1⟩, ⟨ "docs", .tree, 2⟩] else some [],
   fun sha => if sha = 1 then some ⟨ "base64", some ⟨some ⟨ "A"⟩⟩⟩ else none⟩

/-- The C7 witness remote is well-formed. -/
theorem c7Remote_wf : WFRemote c7Remote := by
  intro sha l h
  simp only [c7Remote] at h
  split at h
  · injection h with h2
    subst h2
    exact ⟨by decide, by decide⟩
  · injection h with h2
    subst h2
    exact ⟨by decide, by decide⟩

/-- Witness for C7 at the concrete remote. -/
theorem C7_harvest_invariants_witness :
    ((scrapeWalkOut c7Remote noFilter 3).files.map RepoFile.path).Nodup :=
  (C7_harvest_invariants c7Remote noFilter 3 c7Remote_wf).2.2.1

/-! ## Concurrency bound (claim C8)

The cooperative scheduler is modeled as a transition system.  A task, as
spawned by RepoWalker._walk or _handle_blob, acquires the semaphore, performs
its one remote call while holding it, releases it on exit from the
async-with block, and only then creates its child tasks (create_task happens
after the semaphore block in _walk; _handle_blob spawns nothing).  The
semaphore counter and the task queues are the state; any enabled task may
step, so all interleavings of the fan-out are covered. -/

/-- A task together with the tasks it will spawn once its remote call
completes. -/
inductive TaskSpec where
  | node : List TaskSpec → TaskSpec

/-- Scheduler state: free semaphore permits, tasks not yet holding a permit,
and tasks currently inside the semaphore block (their remote call is
outstanding). -/
structure SemState where
  sem : Nat
  pending : List TaskSpec
  inCall : List TaskSpec

/-- One scheduler step: a pending task acquires a free permit and issues its
call, or an outstanding call completes, releasing the permit and spawning
the task's children as new pending tasks. -/
inductive SemStep : SemState → SemState → Prop where
  | acquire (sem : Nat) (p₁ p₂ c : List TaskSpec) (t : TaskSpec) :
      SemStep ⟨sem + 1, p₁ ++ t :: p₂, c⟩ ⟨sem, p₁ ++ p₂, t :: c⟩
  | complete (sem : Nat) (p c₁ c₂ l : List TaskSpec) :
      SemStep ⟨sem, p, c₁ ++ TaskSpec.node l :: c₂⟩ ⟨sem + 1, p ++ l, c₁ ++ c₂⟩

/-- Permit accounting: free permits plus outstanding calls is invariant. -/
theorem semStep_invariant {N : Nat} {s s' : SemState} (h : SemStep s s')
    (hinv : s.sem + s.inCall.length = N) : s'.sem + s'.inCall.length = N := by
  cases h with
  | acquire sem p₁ p₂ c t =>
    simp only [List.length_cons] at hinv ⊢
    omega
  | complete sem p c₁ c₂ l =>
    simp only [List.length_append, List.length_cons] at hinv ⊢
    omega

/-- Children a walk task will spawn for one listing, mirroring the loop of
RepoWalker._walk: a filtered-in blob spawns a leaf _handle_blob task, a
filtered-in directory spawns a sub-walk task, everything else spawns
nothing. -/
def taskChildren (remote : Remote) (pf : PathFilter)
    (recur : Nat → String → TaskSpec) (pre : String) : List TreeEntry → List TaskSpec
  | [] => []
  | obj :: rest =>
    (match obj.type with
      | .blob =>
        if pf.matchFile (pre ++ obj.path) then [TaskSpec.node []] else []
      | .tree =>
        if pf.matchDirectory (pre ++ obj.path) then [recur obj.sha (pre ++ obj.path ++ "/")]
        else []
      | .other => []) ++ taskChildren remote pf recur pre rest

/-- The task tree of a (sub)walk: one remote call (the tree listing), then
the children derived from its result; a failed listing spawns nothing. -/
def taskOf (remote : Remote) (pf : PathFilter) : Nat → Nat → String → TaskSpec
  | 0, _, _ => .node []
  | fuel + 1, sha, pre =>
    .node (match remote.getTree sha with
      | none => []
      | some entries => taskChildren remote pf (fun s p => taskOf remote pf fuel s p) pre entries)

/-- C8: starting from N free permits and the walk's root task, every
reachable scheduler state has at most N outstanding remote calls, for every
remote, filter and interleaving - the semaphore bound holds regardless of
tree fan-out. -/
theorem C8_semaphore_bound (remote : Remote) (pf : PathFilter)
    (fuel root N : Nat) (s : SemState)
    (h : Relation.ReflTransGen SemStep
      ⟨N, [taskOf remote pf fuel root ""], []⟩ s) :
    s.inCall.length ≤ N := by
  have hinv : s.sem + s.inCall.length = N := by
    induction h with
    | refl => rfl
    | tail _ step ih => exact semStep_invariant step ih
  omega

/-- Witness for C8: the initial state with the default semaphore size of 3 is
reachable and within the bound. -/
theorem C8_semaphore_bound_witness :
    (⟨defaultMaxWorkers, [taskOf c7Remote noFilter 3 0 ""], []⟩ : SemState).inCall.length
      ≤ defaultMaxWorkers :=
  C8_semaphore_bound c7Remote noFilter 3 0 defaultMaxWorkers _ Relation.ReflTransGen.refl

end CodeAgent
